import Mathlib

/-!
Verification of the static site generator `scripts/build.js`.

The program is shallowly embedded: each JavaScript function is translated
into a Lean function of the same name over `String` / `List Char`, and the
effectful main routine `run` is translated into a pure function producing
the ordered list of file-system effects it performs.

Modelling conventions, recorded once here:
* JavaScript strings are modelled as Lean `String` (a list of characters);
  string indexing/slicing is by character.
* `String.prototype.replace` with a string pattern replaces the first
  occurrence only and applies `$`-substitution (`$$`, `$&`, `$` + backtick,
  `$'`) to the replacement string; this is modelled by `replaceFirstJS` /
  `substRepl`.  `replace` with a `/g` literal-pattern regex replaces all
  non-overlapping occurrences left to right; modelled by `replaceAll`
  (the replacement strings at every `/g` call site in the source are
  constants containing no `$`, so no `$`-substitution arises there).
* `localeCompare` (used only to sort article filenames) is modelled as the
  codepoint-lexicographic comparison on strings, and the default
  (code-unit lexicographic) `Array.prototype.sort` on the ASCII date keys
  is likewise modelled by the lexicographic order on `String`.
* Numbers interpolated into strings (page numbers, the year) are naturals
  rendered in decimal by `decNat`.
* Directory constants (`__dirname`-relative in the source) are modelled as
  the fixed relative paths `pages`, `_site`, `_site/archives`.
-/

set_option maxHeartbeats 1000000
set_option maxRecDepth 100000

/-- Boolean test that `p` is a leading segment of `l` (character lists). -/
def startsWithL : List Char → List Char → Bool
  | [], _ => true
  | _ :: _, [] => false
  | a :: as, b :: bs => a == b && startsWithL as bs

/-- Boolean test that `suf` is a trailing segment of `l`. -/
def endsWithL (suf l : List Char) : Bool :=
  startsWithL suf.reverse l.reverse

/-- Scanning state of `replaceAll`: with skip count `k + 1`, the next
character is still part of an already-replaced match and is dropped; with
skip count `0`, a match of `pat` at the current position emits `repl` and
sets the skip count to cover the rest of the match, and otherwise the
character is copied. -/
def replaceAllAux (pat repl : List Char) : Nat → List Char → List Char
  | _, [] => []
  | k + 1, _ :: rest => replaceAllAux pat repl k rest
  | 0, c :: rest =>
    if pat ≠ [] ∧ startsWithL pat (c :: rest) = true then
      repl ++ replaceAllAux pat repl (pat.length - 1) rest
    else
      c :: replaceAllAux pat repl 0 rest

/-- All non-overlapping occurrences of `pat` replaced by `repl`, scanning
left to right; embeds `String.prototype.replace` with a `/g` literal
pattern (where the replacement contains no `$`). -/
def replaceAll (pat repl : List Char) (l : List Char) : List Char :=
  replaceAllAux pat repl 0 l

/-- The character `'` (codepoint 39). -/
def quoteCh : Char := Char.ofNat 39

/-- The backtick character (codepoint 96). -/
def backtickCh : Char := Char.ofNat 96

/-- ECMAScript `GetSubstitution` for a string-pattern `replace` call:
in the replacement string, `$$` yields `$`, `$&` yields the matched
pattern, `$` + backtick yields the part of the subject before the match,
`$'` yields the part after the match; any other `$` is literal. -/
def substRepl (matched before after : List Char) : List Char → List Char
  | [] => []
  | [c] => [c]
  | c :: d :: rest =>
    if c == '$' then
      if d == '$' then '$' :: substRepl matched before after rest
      else if d == '&' then matched ++ substRepl matched before after rest
      else if d == backtickCh then before ++ substRepl matched before after rest
      else if d == quoteCh then after ++ substRepl matched before after rest
      else c :: substRepl matched before after (d :: rest)
    else c :: substRepl matched before after (d :: rest)

/-- Splits `l` around the first occurrence of `pat`, returning the parts
before and after the match, or `none` if `pat` does not occur. -/
def splitFirst (pat : List Char) : List Char → Option (List Char × List Char)
  | [] => if startsWithL pat [] then some ([], []) else none
  | c :: rest =>
    if startsWithL pat (c :: rest) then some ([], (c :: rest).drop pat.length)
    else
      match splitFirst pat rest with
      | some (pre, post) => some (c :: pre, post)
      | none => none

/-- Embeds `String.prototype.replace` with a string pattern: the first
occurrence of `pat` is replaced by `repl` after `$`-substitution; if `pat`
does not occur the subject is returned unchanged. -/
def replaceFirstJS (pat repl l : List Char) : List Char :=
  match splitFirst pat l with
  | none => l
  | some (pre, post) => pre ++ substRepl pat pre post repl ++ post

/-- Decimal digit character for `n % 10`. -/
def digitChar (n : Nat) : Char := Char.ofNat (48 + n % 10)

/-- Decimal digit characters of `n`, most significant first, computed
with `fuel` spare iterations (any `fuel ≥ number of digits` agrees). -/
def natDigitsAux : Nat → Nat → List Char
  | 0, _ => []
  | fuel + 1, n =>
    if n < 10 then [digitChar n]
    else natDigitsAux fuel (n / 10) ++ [digitChar (n % 10)]

/-- Decimal digit characters of `n`, most significant first. -/
def natDigits (n : Nat) : List Char := natDigitsAux (n + 1) n

/-- Decimal rendering of a natural number; embeds the JavaScript
number-to-string coercion for the naturals appearing in this program. -/
def decNat (n : Nat) : String := ⟨natDigits n⟩

/-- `pat` occurs (contiguously) inside `s`. -/
def OccursIn (pat s : String) : Prop :=
  ∃ pre post : List Char, s.data = pre ++ pat.data ++ post

-- --- the data model ---

/-- One parsed article, as constructed by `getArticleFromFilename`. -/
structure Article where
  title : String
  date : String
  path : String
  filename : String
deriving DecidableEq, Repr

/-- Embeds `escapeHtml` (build.js line 12): every `"` replaced by `&quot;`. -/
def escapeHtml (text : String) : String :=
  ⟨replaceAll ("\"".data) ("&quot;".data) text.data⟩

/-- Embeds the regex match `^(\d{4}-\d{2}-\d{2})-` : on success returns the
ten-character date group and the rest of the input after the trailing dash. -/
def matchDateStart : List Char → Option (List Char × List Char)
  | y1 :: y2 :: y3 :: y4 :: s1 :: m1 :: m2 :: s2 :: d1 :: d2 :: s3 :: rest =>
    if y1.isDigit && y2.isDigit && y3.isDigit && y4.isDigit && s1 == '-' &&
       m1.isDigit && m2.isDigit && s2 == '-' && d1.isDigit && d2.isDigit && s3 == '-'
    then some ([y1, y2, y3, y4, s1, m1, m2, s2, d1, d2], rest)
    else none
  | _ => none

/-- Embeds the replace call removing the anchored date prefix
`^\d{4}-\d{2}-\d{2}` plus its trailing dash (build.js line 24). -/
def stripDateStart (l : List Char) : List Char :=
  match matchDateStart l with
  | some (_, rest) => rest
  | none => l

/-- Embeds `.replace(/\.html$/, '')`. -/
def stripHtmlSuffix (l : List Char) : List Char :=
  if endsWithL (".html".data) l then l.take (l.length - 5) else l

/-- The title computation of `getArticleFromFilename` (build.js lines
23-28): strip the date prefix and the `.html` suffix, then apply the three
fixed literal replacements in order. -/
def decodeFilenameTitle (file : String) : String :=
  ⟨replaceAll ("%EF%BC%9A".data) ("：".data)
    (replaceAll ("%E2%80%94".data) ("—".data)
      (replaceAll ("%20".data) (" ".data)
        (stripHtmlSuffix (stripDateStart file.data))))⟩

/-- Embeds `getArticleFromFilename` (build.js lines 16-36). -/
def getArticleFromFilename (file : String) : Option Article :=
  if file = "index.html" ∨ endsWithL (".html".data) file.data = false then none
  else
    match matchDateStart file.data with
    | none => none
    | some (dateChars, _) =>
      some { title := decodeFilenameTitle file
             date := ⟨dateChars⟩
             path := "pages/" ++ file
             filename := file }

-- --- grouping, sorting, fragments ---

/-- Descending-by-filename comparison used to sort the article list
(build.js line 108); `localeCompare` is modelled as the lexicographic
order on strings (see the header). -/
def descFilename (a b : Article) : Prop := b.filename ≤ a.filename

instance : DecidableRel descFilename := fun a b =>
  inferInstanceAs (Decidable (b.filename ≤ a.filename))

instance : IsTotal Article descFilename :=
  ⟨fun a b => le_total b.filename a.filename⟩

instance : IsTrans Article descFilename :=
  ⟨fun _ _ _ h1 h2 => le_trans h2 h1⟩

/-- Embeds `.sort((a, b) => b.filename.localeCompare(a.filename))`
(build.js line 108); a stable sort, as ECMAScript requires. -/
def sortArticles (l : List Article) : List Article :=
  List.insertionSort descFilename l

/-- Lookup in the association list modelling `groupedByDate[date]`. -/
def lookupG (d : String) : List (String × List Article) → List Article
  | [] => []
  | (k, g) :: rest => if k = d then g else lookupG d rest

/-- One step of building `groupedByDate`: push `a` onto the group of its
date, creating the group (at the end, preserving key insertion order) if
absent. -/
def insertGroup : List (String × List Article) → Article → List (String × List Article)
  | [], a => [(a.date, [a])]
  | (k, g) :: rest, a =>
    if k = a.date then (k, g ++ [a]) :: rest
    else (k, g) :: insertGroup rest a

/-- Embeds the `groupedByDate` object of `generateArticlesHtml` (build.js
lines 39-45) as an association list in key insertion order. -/
def groupByDate (articles : List Article) : List (String × List Article) :=
  articles.foldl insertGroup []

/-- The keys of the grouping, in insertion order (`Object.keys`). -/
def keysOf (groups : List (String × List Article)) : List String :=
  groups.map Prod.fst

/-- Embeds `Object.keys(groupedByDate).sort().reverse()` (build.js line
48): keys sorted ascending (lexicographic) then reversed. -/
def sortedDatesDesc (groups : List (String × List Article)) : List String :=
  (List.insertionSort (fun d e : String => d ≤ e) (keysOf groups)).reverse

/-- The literal text of the date-group block before the date string. -/
def groupHeadA : String := "\n<div class=\"date-group\">\n    <div class=\"date-header\">"

/-- The literal text of the date-group block after the date string. -/
def groupHeadB : String := "</div>\n    <ul class=\"article-list\">\n"

/-- The literal text closing a date-group block (build.js line 63). -/
def groupFoot : String := "    </ul>\n</div>\n"

/-- Embeds the per-article template literal of `generateArticlesHtml`
(build.js lines 56-61). -/
def articleItemHtml (article : Article) : String :=
  "\n        <li class=\"article-item\">\n            <a href=\"/" ++ article.path
  ++ "\" target=\"_blank\" class=\"article-link\">" ++ article.title
  ++ "</a>\n            <button class=\"copy-btn\" data-title=\"" ++ escapeHtml article.title
  ++ "\" data-path=\"" ++ article.path ++ "\">复制链接</button>\n        </li>\n"

/-- Embeds `generateArticlesHtml` (build.js lines 38-68): group the
articles by date, then, for each key in descending order, append the
group header, every item of the group, and the group footer to the
accumulated string. -/
def generateArticlesHtml (articles : List Article) : String :=
  let groups := groupByDate articles
  (sortedDatesDesc groups).foldl
    (fun html date =>
      ((lookupG date groups).foldl (fun h a => h ++ articleItemHtml a)
        (html ++ groupHeadA ++ date ++ groupHeadB)) ++ groupFoot)
    ""

/-- Concatenation of a list of strings, in order. -/
def strConcat (l : List String) : String := l.foldr (· ++ ·) ""

/-- The structured form of one rendered date group (derived, used to state
properties of `generateArticlesHtml`). -/
def dateGroupHtml (date : String) (group : List Article) : String :=
  groupHeadA ++ date ++ groupHeadB ++ strConcat (group.map articleItemHtml) ++ groupFoot

-- --- pagination ---

/-- Embeds `generatePaginationHtml` (build.js lines 70-90). -/
def generatePaginationHtml (currentPage totalPages : Nat) : String :=
  let html := "<div class=\"pagination\">"
  let html := if currentPage > 1 then
      html ++ ("<a href=\""
        ++ (if currentPage = 2 then "/" else "/archives/" ++ decNat (currentPage - 1) ++ "/")
        ++ "\" class=\"pagination-link\">« 上一页</a>")
    else html
  let html := html ++ ("<span class=\"pagination-current\">第 " ++ decNat currentPage
    ++ " / " ++ decNat totalPages ++ " 页</span>")
  let html := if currentPage < totalPages then
      html ++ ("<a href=\"/archives/" ++ decNat (currentPage + 1)
        ++ "/\" class=\"pagination-link\">下一页 »</a>")
    else html
  html ++ "</div>"

/-- The previous-page anchor emitted for target `t` (build.js line 76). -/
def prevAnchorHtml (t : String) : String :=
  "<a href=\"" ++ t ++ "\" class=\"pagination-link\">« 上一页</a>"

/-- The next-page anchor emitted for target `t` (build.js line 85). -/
def nextAnchorHtml (t : String) : String :=
  "<a href=\"/archives/" ++ t ++ "/\" class=\"pagination-link\">下一页 »</a>"

/-- The always-present page indicator (build.js line 80). -/
def pageIndicatorHtml (currentPage totalPages : Nat) : String :=
  "<span class=\"pagination-current\">第 " ++ decNat currentPage
    ++ " / " ++ decNat totalPages ++ " 页</span>"

-- --- pagination arithmetic and page slices ---

/-- `POSTS_PER_PAGE` (build.js line 5). -/
def POSTS_PER_PAGE : Nat := 10

/-- Embeds `Math.ceil(allArticles.length / POSTS_PER_PAGE)` (line 116). -/
def totalPagesFor (n : Nat) : Nat := (n + POSTS_PER_PAGE - 1) / POSTS_PER_PAGE

/-- Embeds `allArticles.slice((i-1)*POSTS_PER_PAGE, i*POSTS_PER_PAGE)`
(build.js lines 122-124) for the 1-based page number `i`. -/
def pageSlice (l : List Article) (i : Nat) : List Article :=
  (l.drop ((i - 1) * POSTS_PER_PAGE)).take POSTS_PER_PAGE

-- --- template substitution ---

/-- The article-list placeholder token (build.js line 129). -/
def phArchives : String := "<!-- ARCHIVES_PLACEHOLDER -->"

/-- The pagination placeholder token (build.js line 130). -/
def phPagination : String := "<!-- PAGINATION_PLACEHOLDER -->"

/-- The year placeholder token (build.js line 131). -/
def phYear : String := "<!-- YEAR_PLACEHOLDER -->"

/-- Embeds the three `template.replace(...)` calls of build.js lines
129-131 (first occurrence each, with `$`-substitution in the inserted
fragment, as `String.prototype.replace` specifies). -/
def assemblePage (template articlesHtml paginationHtml : String) (year : Nat) : String :=
  ⟨replaceFirstJS (phYear.data) ((decNat year).data)
    (replaceFirstJS (phPagination.data) (paginationHtml.data)
      (replaceFirstJS (phArchives.data) (articlesHtml.data) template.data))⟩

-- --- the main routine as an effect trace ---

/-- One file-system or console effect performed by `run`. -/
inductive Effect where
  | rmDir (p : String)
  | mkDir (p : String)
  | copyDir (src dst : String)
  | writeFile (p content : String)
  | logLine (s : String)
deriving DecidableEq, Repr

/-- The source assets directory (`pagesDir`, modelled relative). -/
def pagesDir : String := "pages"

/-- The output directory (`siteDir`, modelled relative). -/
def siteDir : String := "_site"

/-- `archivesDir = path.join(siteDir, 'archives')`. -/
def archivesDir : String := "_site/archives"

/-- Output directory of page `i` (build.js lines 133-138). -/
def pageOutputDir (i : Nat) : String :=
  if i = 1 then siteDir else archivesDir ++ "/" ++ decNat i

/-- Effects of building one page `i` (build.js lines 121-142). -/
def pageEffects (template : String) (year : Nat) (allArticles : List Article)
    (totalPages i : Nat) : List Effect :=
  let pageArticles := pageSlice allArticles i
  let articlesHtml := generateArticlesHtml pageArticles
  let paginationHtml := generatePaginationHtml i totalPages
  let finalHtml := assemblePage template articlesHtml paginationHtml year
  [Effect.mkDir (pageOutputDir i),
   Effect.writeFile (pageOutputDir i ++ "/index.html") finalHtml,
   Effect.logLine ("Successfully built page " ++ decNat i ++ " to "
     ++ (pageOutputDir i ++ "/index.html"))]

/-- Embeds `run` (build.js lines 93-147) as the ordered list of effects it
performs, as a function of the source directory listing, the template text
and the current year. -/
def run (files : List String) (template : String) (year : Nat) : List Effect :=
  let allArticles := sortArticles (files.filterMap getArticleFromFilename)
  Effect.rmDir siteDir ::
  Effect.mkDir siteDir ::
  Effect.logLine ("Cleaned and created directory: " ++ siteDir) ::
  Effect.copyDir pagesDir (siteDir ++ "/pages") ::
  Effect.logLine ("Copied 'pages' directory to " ++ siteDir) ::
  (if allArticles.length = 0 then
    [Effect.logLine ("No articles found. Site generation stopped.")]
  else
    let totalPages := totalPagesFor allArticles.length
    ((List.range totalPages).map
      (fun k => pageEffects template year allArticles totalPages (k + 1))).flatten
    ++ [Effect.logLine ("\nTotal pages built: " ++ decNat totalPages)])

-- --- a file-system semantics for effect traces ---

/-- Write (or overwrite) path `p` with content `c` in the modelled output
tree. -/
def setFile (fs : List (String × String)) (p c : String) : List (String × String) :=
  (fs.filter (fun e => e.1 != p)) ++ [(p, c)]

/-- Applies one effect to the modelled state of the output directory.
The model tracks only the build output tree, so removing the site root
clears the state; `pagesFS` gives the contents of the source assets
directory used by the copy step. -/
def applyEffect (pagesFS : List (String × String)) (fs : List (String × String)) :
    Effect → List (String × String)
  | Effect.rmDir p => if p = siteDir then [] else fs
  | Effect.mkDir _ => fs
  | Effect.copyDir _ dst => fs ++ pagesFS.map (fun e => (dst ++ "/" ++ e.1, e.2))
  | Effect.writeFile p c => setFile fs p c
  | Effect.logLine _ => fs

/-- Applies a trace of effects in order. -/
def applyEffects (pagesFS fs : List (String × String)) : List Effect → List (String × String)
  | [] => fs
  | e :: rest => applyEffects pagesFS (applyEffect pagesFS fs e) rest

-- --- auxiliary predicates and the spec-side literal substitution ---

/-- `true` iff the list contains one of the `$`-substitution escapes
(`$$`, `$&`, `$` + backtick, `$'`) recognised by `substRepl`. -/
def hasSubstEscape : List Char → Bool
  | [] => false
  | [_] => false
  | c :: d :: rest =>
    (c == '$' && (d == '$' || d == '&' || d == backtickCh || d == quoteCh))
    || hasSubstEscape (d :: rest)

/-- Modelled from the spec: replacement of the first occurrence of `pat`
by the literal string `repl`, with no `$`-substitution — the behaviour the
specification ascribes to the placeholder replacement step.  Used to
compare against `replaceFirstJS`, the embedding of the source. -/
def literalReplaceFirst (pat repl l : List Char) : List Char :=
  match splitFirst pat l with
  | none => l
  | some (pre, post) => pre ++ repl ++ post

/-- Modelled from the spec: the page assembly of build.js lines 129-131
with each placeholder replaced (first occurrence) by the literal fragment
string. -/
def literalAssemblePage (template articlesHtml paginationHtml : String) (year : Nat) : String :=
  ⟨literalReplaceFirst (phYear.data) ((decNat year).data)
    (literalReplaceFirst (phPagination.data) (paginationHtml.data)
      (literalReplaceFirst (phArchives.data) (articlesHtml.data) template.data))⟩

/-- No occurrence of `pat` begins at any position of `l` before index `k`. -/
def noMatchBefore (pat l : List Char) (k : Nat) : Prop :=
  ∀ j, j < k → startsWithL pat (l.drop j) = false

instance (pat l : List Char) (k : Nat) : Decidable (noMatchBefore pat l k) :=
  inferInstanceAs (Decidable (∀ j, j < k → startsWithL pat (l.drop j) = false))

/-- A sample article record, used to instantiate universally quantified
results on concrete inputs. -/
def sampleArticle : Article :=
  { title := "t", date := "2024-01-01", path := "pages/2024-01-01-t.html",
    filename := "2024-01-01-t.html" }

-- --- basic lemmas ---

theorem strExt {a b : String} (h : a.data = b.data) : a = b := by
  cases a; cases b; exact congrArg String.mk h

theorem strConcat_nil : strConcat [] = "" := rfl

theorem strConcat_cons (s : String) (l : List String) :
    strConcat (s :: l) = s ++ strConcat l := rfl

theorem startsWithL_self_append (p t : List Char) : startsWithL p (p ++ t) = true := by
  induction p with
  | nil => rfl
  | cons a as ih => simp [startsWithL, ih]

theorem startsWithL_iff (p l : List Char) :
    startsWithL p l = true ↔ ∃ t, l = p ++ t := by
  constructor
  · intro h
    induction p generalizing l with
    | nil => exact ⟨l, rfl⟩
    | cons a as ih =>
      cases l with
      | nil => simp [startsWithL] at h
      | cons b bs =>
        simp only [startsWithL, Bool.and_eq_true, beq_iff_eq] at h
        obtain ⟨t, ht⟩ := ih bs h.2
        exact ⟨t, by simp [h.1, ht]⟩
  · rintro ⟨t, rfl⟩
    exact startsWithL_self_append p t

theorem endsWithL_append (xs suf : List Char) : endsWithL suf (xs ++ suf) = true := by
  simp only [endsWithL, List.reverse_append]
  exact startsWithL_self_append suf.reverse xs.reverse

theorem occursIn_of_decomp {pat s : String} (pre post : List Char)
    (h : s.data = pre ++ pat.data ++ post) : OccursIn pat s := ⟨pre, post, h⟩

theorem occursIn_mem {pat s : String} (h : OccursIn pat s) {c : Char}
    (hc : c ∈ pat.data) : c ∈ s.data := by
  obtain ⟨pre, post, hs⟩ := h
  rw [hs]
  simp [hc]

theorem digitChar_mem (k : Nat) : digitChar k ∈ ("0123456789" : String).data := by
  unfold digitChar
  have hm : k % 10 < 10 := Nat.mod_lt _ (by omega)
  set m := k % 10 with hmdef
  interval_cases m <;> decide

theorem natDigitsAux_mem : ∀ (fuel n : Nat), ∀ c ∈ natDigitsAux fuel n,
    c ∈ ("0123456789" : String).data := by
  intro fuel
  induction fuel with
  | zero => intro n c hc; simp [natDigitsAux] at hc
  | succ fuel ih =>
    intro n c hc
    rw [natDigitsAux] at hc
    by_cases h : n < 10
    · rw [if_pos h] at hc
      simp only [List.mem_singleton] at hc
      exact hc ▸ digitChar_mem n
    · rw [if_neg h] at hc
      rcases List.mem_append.mp hc with h1 | h2
      · exact ih (n / 10) c h1
      · simp only [List.mem_singleton] at h2
        exact h2 ▸ digitChar_mem (n % 10)

theorem natDigits_mem_digits : ∀ (n : Nat), ∀ c ∈ natDigits n,
    c ∈ ("0123456789" : String).data :=
  fun n => natDigitsAux_mem (n + 1) n

theorem decNat_mem {c : Char} {n : Nat} (h : c ∈ (decNat n).data) :
    c ∈ ("0123456789" : String).data :=
  natDigits_mem_digits n c h

theorem flatten_map_eq_self (f : Char → List Char) :
    ∀ (l : List Char), (∀ c ∈ l, f c = [c]) → (l.map f).flatten = l := by
  intro l
  induction l with
  | nil => intro _; rfl
  | cons c rest ih =>
    intro h
    simp only [List.map_cons, List.flatten_cons, h c (by simp)]
    rw [ih (fun x hx => h x (by simp [hx]))]
    rfl

theorem replaceAll_one (q : Char) (repl : List Char) :
    ∀ (l : List Char),
      replaceAll [q] repl l = (l.map (fun c => if c = q then repl else [c])).flatten := by
  intro l
  induction l with
  | nil => simp [replaceAll, replaceAllAux]
  | cons c rest ih =>
    rw [replaceAll, replaceAllAux]
    by_cases h : q = c
    · subst h
      rw [if_pos ⟨by simp, by simp [startsWithL]⟩]
      rw [show replaceAllAux [q] repl ([q].length - 1) rest = replaceAll [q] repl rest from rfl,
        ih]
      simp
    · have hs : startsWithL [q] (c :: rest) = false := by
        simp [startsWithL, h]
      rw [if_neg (by simp [hs])]
      simp only [List.map_cons, List.flatten_cons, if_neg (Ne.symm h)]
      rw [show replaceAllAux [q] repl 0 rest = replaceAll [q] repl rest from rfl, ih]
      rfl

theorem escapeHtml_data (s : String) :
    (escapeHtml s).data =
      (s.data.map (fun c => if c = '"' then ("&quot;" : String).data else [c])).flatten := by
  show replaceAll ("\"".data) ("&quot;".data) s.data = _
  have hq : ("\"" : String).data = ['"'] := rfl
  rw [hq, replaceAll_one]

theorem escapeHtml_of_no_quote (s : String) (h : ∀ c ∈ s.data, c ≠ '"') :
    escapeHtml s = s := by
  apply strExt
  rw [escapeHtml_data]
  exact flatten_map_eq_self _ s.data (fun c hc => if_neg (h c hc))

theorem substRepl_of_no_escape (m b a : List Char) :
    ∀ (repl : List Char), hasSubstEscape repl = false → substRepl m b a repl = repl := by
  intro repl
  induction repl using substRepl.induct m b a with
  | case1 => intro _; simp [substRepl]
  | case2 c => intro _; simp [substRepl]
  | case3 c d rest hc hd ih =>
    intro he
    rw [hasSubstEscape] at he
    simp [hc, hd] at he
  | case4 c d rest hc hd1 hd2 ih =>
    intro he
    rw [hasSubstEscape] at he
    simp [hc, hd2] at he
  | case5 c d rest hc hd1 hd2 hd3 ih =>
    intro he
    rw [hasSubstEscape] at he
    simp [hc, hd3] at he
  | case6 c d rest hc hd1 hd2 hd3 hd4 ih =>
    intro he
    rw [hasSubstEscape] at he
    simp [hc, hd4] at he
  | case7 c d rest hc hd1 hd2 hd3 hd4 ih =>
    intro he
    rw [hasSubstEscape] at he
    simp only [Bool.or_eq_false_iff] at he
    rw [substRepl, if_pos hc, if_neg hd1, if_neg hd2, if_neg hd3, if_neg hd4]
    rw [ih he.2]
  | case8 c d rest hc ih =>
    intro he
    rw [hasSubstEscape] at he
    simp only [Bool.or_eq_false_iff] at he
    rw [substRepl, if_neg hc]
    rw [ih he.2]

theorem no_dollar_no_escape : ∀ (l : List Char), '$' ∉ l → hasSubstEscape l = false := by
  intro l
  induction l with
  | nil => intro _; rfl
  | cons c rest ih =>
    intro h
    cases rest with
    | nil => rfl
    | cons d rest' =>
      rw [hasSubstEscape]
      have hc : (c == '$') = false := by
        simp only [beq_eq_false_iff_ne, ne_eq]
        intro hh
        exact h (by simp [hh])
      simp only [hc, Bool.false_and, Bool.false_or]
      exact ih (fun hm => h (by simp [hm]))

theorem splitFirst_of_decomp (pat : List Char) :
    ∀ (pre post : List Char), noMatchBefore pat (pre ++ pat ++ post) pre.length →
      splitFirst pat (pre ++ pat ++ post) = some (pre, post) := by
  intro pre
  induction pre with
  | nil =>
    intro post _
    simp only [List.nil_append]
    cases hl : pat ++ post with
    | nil =>
      have hp : pat = [] := by
        cases pat with
        | nil => rfl
        | cons a as => simp at hl
      subst hp
      simp at hl
      subst hl
      rfl
    | cons c rest =>
      rw [splitFirst, if_pos (hl ▸ startsWithL_self_append pat post)]
      rw [← hl, List.drop_left]
  | cons c pre' ih =>
    intro post h
    have h0 := h 0 (by simp)
    rw [List.drop_zero, List.cons_append, List.cons_append] at h0
    have hrest : noMatchBefore pat (pre' ++ pat ++ post) pre'.length := by
      intro j hj
      have hj1 := h (j + 1) (by simp only [List.length_cons]; omega)
      rw [List.cons_append, List.cons_append, List.drop_succ_cons] at hj1
      exact hj1
    rw [List.cons_append, List.cons_append, splitFirst, if_neg (by rw [h0]; simp),
      ih post hrest]

theorem replaceFirstJS_decomp (pat repl pre post : List Char)
    (h : noMatchBefore pat (pre ++ pat ++ post) pre.length) :
    replaceFirstJS pat repl (pre ++ pat ++ post) = pre ++ substRepl pat pre post repl ++ post := by
  rw [replaceFirstJS, splitFirst_of_decomp pat pre post h]

theorem replaceFirstJS_literal (pat repl pre post : List Char)
    (h : noMatchBefore pat (pre ++ pat ++ post) pre.length)
    (hr : hasSubstEscape repl = false) :
    replaceFirstJS pat repl (pre ++ pat ++ post) = pre ++ repl ++ post := by
  rw [replaceFirstJS_decomp pat repl pre post h, substRepl_of_no_escape pat pre post repl hr]

theorem literalReplaceFirst_decomp (pat repl pre post : List Char)
    (h : noMatchBefore pat (pre ++ pat ++ post) pre.length) :
    literalReplaceFirst pat repl (pre ++ pat ++ post) = pre ++ repl ++ post := by
  rw [literalReplaceFirst, splitFirst_of_decomp pat pre post h]

-- --- string folding and grouping lemmas ---

theorem foldl_append_str {α : Type} (f : α → String) :
    ∀ (l : List α) (init : String),
      l.foldl (fun h a => h ++ f a) init = init ++ strConcat (l.map f) := by
  intro l
  induction l with
  | nil => intro init; simp [strConcat_nil, String.append_empty]
  | cons a rest ih =>
    intro init
    rw [List.foldl_cons, ih, List.map_cons, strConcat_cons, String.append_assoc]

theorem lookupG_insertGroup (d : String) (a : Article) :
    ∀ (acc : List (String × List Article)),
      lookupG d (insertGroup acc a) =
        lookupG d acc ++ (if a.date = d then [a] else []) := by
  intro acc
  induction acc with
  | nil =>
    by_cases h : a.date = d
    · simp [insertGroup, lookupG, h]
    · simp [insertGroup, lookupG, h]
  | cons kg rest ih =>
    obtain ⟨k, g⟩ := kg
    rw [insertGroup]
    by_cases hk : k = a.date
    · rw [if_pos hk]
      by_cases hd : k = d
      · have had : a.date = d := hk ▸ hd
        simp [lookupG, hd, had]
      · have had : a.date ≠ d := hk ▸ hd
        simp [lookupG, hd, had]
    · rw [if_neg hk]
      by_cases hd : k = d
      · have had : a.date ≠ d := fun hh => hk (hd.trans hh.symm)
        simp [lookupG, hd, had]
      · simp [lookupG, hd, ih]

theorem lookupG_foldl (d : String) :
    ∀ (l : List Article) (acc : List (String × List Article)),
      lookupG d (l.foldl insertGroup acc) =
        lookupG d acc ++ l.filter (fun a => a.date == d) := by
  intro l
  induction l with
  | nil => intro acc; simp
  | cons a rest ih =>
    intro acc
    rw [List.foldl_cons, ih, lookupG_insertGroup]
    by_cases h : a.date = d
    · simp [List.filter_cons, h, List.append_assoc]
    · simp [List.filter_cons, h, List.append_assoc]

theorem lookupG_groupByDate (d : String) (l : List Article) :
    lookupG d (groupByDate l) = l.filter (fun a => a.date == d) := by
  rw [groupByDate, lookupG_foldl]
  rfl

theorem keysOf_insertGroup (a : Article) :
    ∀ (acc : List (String × List Article)),
      keysOf (insertGroup acc a) =
        if a.date ∈ keysOf acc then keysOf acc else keysOf acc ++ [a.date] := by
  intro acc
  induction acc with
  | nil => simp [insertGroup, keysOf]
  | cons kg rest ih =>
    obtain ⟨k, g⟩ := kg
    rw [insertGroup]
    by_cases hk : k = a.date
    · rw [if_pos hk]
      have hmem : a.date ∈ keysOf ((k, g) :: rest) := by simp [keysOf, hk.symm]
      rw [if_pos hmem]
      rfl
    · rw [if_neg hk]
      have hcons : keysOf ((k, g) :: insertGroup rest a) = k :: keysOf (insertGroup rest a) := rfl
      have hcons2 : keysOf ((k, g) :: rest) = k :: keysOf rest := rfl
      rw [hcons, ih, hcons2]
      by_cases hm : a.date ∈ keysOf rest
      · rw [if_pos hm, if_pos (by simp [List.mem_cons, hm])]
      · rw [if_neg hm, if_neg (by simp [List.mem_cons, Ne.symm hk, hm]), List.cons_append]

theorem keysOf_foldl_nodup :
    ∀ (l : List Article) (acc : List (String × List Article)),
      (keysOf acc).Nodup → (keysOf (l.foldl insertGroup acc)).Nodup := by
  intro l
  induction l with
  | nil => intro acc h; exact h
  | cons a rest ih =>
    intro acc h
    rw [List.foldl_cons]
    apply ih
    rw [keysOf_insertGroup]
    by_cases hm : a.date ∈ keysOf acc
    · rwa [if_pos hm]
    · rw [if_neg hm]
      rw [List.nodup_append]
      refine ⟨h, List.nodup_singleton _, ?_⟩
      intro x hx hx2
      rw [List.mem_singleton] at hx2
      exact hm (hx2 ▸ hx)

theorem keysOf_groupByDate_nodup (l : List Article) : (keysOf (groupByDate l)).Nodup :=
  keysOf_foldl_nodup l [] List.nodup_nil

theorem sortedDatesDesc_strictDesc (groups : List (String × List Article))
    (hnd : (keysOf groups).Nodup) :
    (sortedDatesDesc groups).Sorted (fun d e : String => e < d) := by
  rw [sortedDatesDesc]
  have hasc := List.sorted_insertionSort (fun d e : String => d ≤ e) (keysOf groups)
  have hnd' : (List.insertionSort (fun d e : String => d ≤ e) (keysOf groups)).Nodup :=
    (List.Perm.nodup_iff (List.perm_insertionSort _ _)).mpr hnd
  have hlt := List.Sorted.lt_of_le hasc hnd'
  exact (List.pairwise_reverse).mpr hlt

theorem sortedDatesDesc_mem (groups : List (String × List Article)) (d : String) :
    d ∈ sortedDatesDesc groups ↔ d ∈ keysOf groups := by
  rw [sortedDatesDesc, List.mem_reverse]
  exact (List.Perm.mem_iff (List.perm_insertionSort _ _))

theorem lookupG_ne_nil_mem (d : String) :
    ∀ (acc : List (String × List Article)), lookupG d acc ≠ [] → d ∈ keysOf acc := by
  intro acc
  induction acc with
  | nil => intro h; exact absurd rfl h
  | cons kg rest ih =>
    obtain ⟨k, g⟩ := kg
    rw [lookupG]
    by_cases hd : k = d
    · intro _; simp [keysOf, hd]
    · rw [if_neg hd]
      intro h
      simp only [keysOf, List.map_cons, List.mem_cons]
      exact Or.inr (ih h)

theorem generateArticlesHtml_eq (articles : List Article) :
    generateArticlesHtml articles =
      strConcat ((sortedDatesDesc (groupByDate articles)).map
        (fun d => dateGroupHtml d (articles.filter (fun a => a.date == d)))) := by
  simp only [generateArticlesHtml]
  have hbody : (fun (html : String) (date : String) =>
      ((lookupG date (groupByDate articles)).foldl (fun h a => h ++ articleItemHtml a)
        (html ++ groupHeadA ++ date ++ groupHeadB)) ++ groupFoot) =
      (fun (html : String) (date : String) =>
        html ++ dateGroupHtml date (lookupG date (groupByDate articles))) := by
    funext html date
    rw [foldl_append_str, dateGroupHtml]
    simp only [String.append_assoc]
  rw [hbody, foldl_append_str, String.empty_append]
  have hmap : (fun d => dateGroupHtml d (lookupG d (groupByDate articles))) =
      (fun d => dateGroupHtml d (articles.filter (fun a => a.date == d))) :=
    funext (fun d => by rw [lookupG_groupByDate])
  rw [hmap]

-- --- parser lemmas ---

theorem matchDateStart_eq (y1 y2 y3 y4 m1 m2 d1 d2 : Char) (rest : List Char)
    (h : ([y1, y2, y3, y4, m1, m2, d1, d2]).all Char.isDigit = true) :
    matchDateStart (y1 :: y2 :: y3 :: y4 :: '-' :: m1 :: m2 :: '-' :: d1 :: d2 :: '-' :: rest) =
      some ([y1, y2, y3, y4, '-', m1, m2, '-', d1, d2], rest) := by
  simp only [List.all_cons, List.all_nil, Bool.and_eq_true, Bool.and_true] at h
  obtain ⟨h1, h2, h3, h4, h5, h6, h7, h8⟩ := h
  rw [matchDateStart]
  rw [if_pos (by simp [h1, h2, h3, h4, h5, h6, h7, h8])]

theorem stripHtmlSuffix_append (l : List Char) :
    stripHtmlSuffix (l ++ (".html".data)) = l := by
  rw [stripHtmlSuffix, if_pos (endsWithL_append l _)]
  have hlen : (l ++ (".html".data)).length - 5 = l.length := by
    simp [List.length_append]
  rw [hlen]
  exact List.take_left l _

theorem file_shape_data (y1 y2 y3 y4 m1 m2 d1 d2 : Char) (rest : String) :
    ((⟨[y1, y2, y3, y4, '-', m1, m2, '-', d1, d2]⟩ : String) ++ "-" ++ rest ++ ".html").data =
      y1 :: y2 :: y3 :: y4 :: '-' :: m1 :: m2 :: '-' :: d1 :: d2 :: '-' ::
        (rest.data ++ (".html".data)) := by
  simp [String.data_append]

/-- The general behaviour of `getArticleFromFilename` on a filename of the
shape `YYYY-MM-DD-<rest>.html` (digit positions given by `hdig`): it
parses, with the ten-character date prefix as date, the three fixed
replacements applied to `<rest>` as title, and `pages/` + filename as
path. -/
theorem getArticle_shape (y1 y2 y3 y4 m1 m2 d1 d2 : Char) (rest : String)
    (hdig : ([y1, y2, y3, y4, m1, m2, d1, d2]).all Char.isDigit = true) :
    getArticleFromFilename ((⟨[y1, y2, y3, y4, '-', m1, m2, '-', d1, d2]⟩ : String)
        ++ "-" ++ rest ++ ".html") =
      some { title := ⟨replaceAll ("%EF%BC%9A".data) ("：".data)
                        (replaceAll ("%E2%80%94".data) ("—".data)
                          (replaceAll ("%20".data) (" ".data) rest.data))⟩
             date := ⟨[y1, y2, y3, y4, '-', m1, m2, '-', d1, d2]⟩
             path := "pages/" ++ ((⟨[y1, y2, y3, y4, '-', m1, m2, '-', d1, d2]⟩ : String)
               ++ "-" ++ rest ++ ".html")
             filename := (⟨[y1, y2, y3, y4, '-', m1, m2, '-', d1, d2]⟩ : String)
               ++ "-" ++ rest ++ ".html" } := by
  have hdata := file_shape_data y1 y2 y3 y4 m1 m2 d1 d2 rest
  have hdata2 : ((⟨[y1, y2, y3, y4, '-', m1, m2, '-', d1, d2]⟩ : String)
      ++ "-" ++ rest ++ ".html").data =
      (y1 :: y2 :: y3 :: y4 :: '-' :: m1 :: m2 :: '-' :: d1 :: d2 :: '-' :: rest.data)
        ++ (".html".data) := by
    rw [hdata]; simp
  have hend : endsWithL (".html".data)
      ((⟨[y1, y2, y3, y4, '-', m1, m2, '-', d1, d2]⟩ : String) ++ "-" ++ rest ++ ".html").data
      = true := by
    rw [hdata2]; exact endsWithL_append _ _
  have hne : ¬((⟨[y1, y2, y3, y4, '-', m1, m2, '-', d1, d2]⟩ : String)
      ++ "-" ++ rest ++ ".html") = "index.html" := by
    intro h
    have hd := congrArg String.data h
    rw [hdata] at hd
    simp at hd
  rw [getArticleFromFilename,
    if_neg (not_or.mpr ⟨hne, fun hfalse => by rw [hend] at hfalse; cases hfalse⟩)]
  rw [hdata, matchDateStart_eq y1 y2 y3 y4 m1 m2 d1 d2 _ hdig]
  have htitle : decodeFilenameTitle ((⟨[y1, y2, y3, y4, '-', m1, m2, '-', d1, d2]⟩ : String)
      ++ "-" ++ rest ++ ".html") =
      ⟨replaceAll ("%EF%BC%9A".data) ("：".data)
        (replaceAll ("%E2%80%94".data) ("—".data)
          (replaceAll ("%20".data) (" ".data) rest.data))⟩ := by
    rw [decodeFilenameTitle]
    rw [stripDateStart, hdata, matchDateStart_eq y1 y2 y3 y4 m1 m2 d1 d2 _ hdig]
    rw [stripHtmlSuffix_append]
  rw [htitle]

-- --- claims ---

/-- C1: for every filename of the form `YYYY-MM-DD-<rest>.html` that is
not `index.html`, parsing returns an article whose date is the
ten-character date prefix and whose title is `<rest>` with, in order,
every `%20` replaced by a space, `%E2%80%94` by the em dash, and
`%EF%BC%9A` by the fullwidth colon, and no other percent sequence
decoded; in particular the `Hello%20World`, `Caf%E2%80%94Talk` and
`a%2Fb` examples. -/
theorem c1_parse_shape (y1 y2 y3 y4 m1 m2 d1 d2 : Char) (rest : String)
    (hdig : ([y1, y2, y3, y4, m1, m2, d1, d2]).all Char.isDigit = true)
    (hni : (⟨[y1, y2, y3, y4, '-', m1, m2, '-', d1, d2]⟩ : String)
      ++ "-" ++ rest ++ ".html" ≠ "index.html") :
    getArticleFromFilename ((⟨[y1, y2, y3, y4, '-', m1, m2, '-', d1, d2]⟩ : String)
        ++ "-" ++ rest ++ ".html") =
      some { title := ⟨replaceAll ("%EF%BC%9A".data) ("：".data)
                        (replaceAll ("%E2%80%94".data) ("—".data)
                          (replaceAll ("%20".data) (" ".data) rest.data))⟩
             date := ⟨[y1, y2, y3, y4, '-', m1, m2, '-', d1, d2]⟩
             path := "pages/" ++ ((⟨[y1, y2, y3, y4, '-', m1, m2, '-', d1, d2]⟩ : String)
               ++ "-" ++ rest ++ ".html")
             filename := (⟨[y1, y2, y3, y4, '-', m1, m2, '-', d1, d2]⟩ : String)
               ++ "-" ++ rest ++ ".html" } ∧
    getArticleFromFilename ("2024-03-05-Hello%20World.html") =
      some { title := "Hello World", date := "2024-03-05",
             path := "pages/2024-03-05-Hello%20World.html",
             filename := "2024-03-05-Hello%20World.html" } ∧
    getArticleFromFilename ("2024-03-05-Caf%E2%80%94Talk.html") =
      some { title := "Caf—Talk", date := "2024-03-05",
             path := "pages/2024-03-05-Caf%E2%80%94Talk.html",
             filename := "2024-03-05-Caf%E2%80%94Talk.html" } ∧
    getArticleFromFilename ("2024-03-05-a%2Fb.html") =
      some { title := "a%2Fb", date := "2024-03-05",
             path := "pages/2024-03-05-a%2Fb.html",
             filename := "2024-03-05-a%2Fb.html" } :=
  ⟨getArticle_shape y1 y2 y3 y4 m1 m2 d1 d2 rest hdig, by decide, by decide, by decide⟩

/-- C1 witness: the theorem applied to the concrete filename
`2024-03-05-Hello%20World.html`. -/
theorem c1_parse_shape_witness :
    getArticleFromFilename ("2024-03-05-Hello%20World.html") =
      some { title := "Hello World", date := "2024-03-05",
             path := "pages/2024-03-05-Hello%20World.html",
             filename := "2024-03-05-Hello%20World.html" } :=
  (c1_parse_shape '2' '0' '2' '4' '0' '3' '0' '5' ("Hello%20World")
    (by decide) (by decide)).2.1

/-- C6: a filename equal to `index.html`, or not ending in `.html`, or
not starting with the `YYYY-MM-DD-` digit pattern, parses to `null` and
contributes no article to the article set. -/
theorem c6_parse_reject (file : String)
    (h : file = "index.html" ∨ endsWithL (".html".data) file.data = false ∨
      matchDateStart file.data = none) :
    getArticleFromFilename file = none ∧
    ∀ (pre post : List String),
      (pre ++ file :: post).filterMap getArticleFromFilename =
        (pre ++ post).filterMap getArticleFromFilename := by
  have hnone : getArticleFromFilename file = none := by
    rw [getArticleFromFilename]
    rcases h with h1 | h2 | h3
    · rw [if_pos (Or.inl h1)]
    · rw [if_pos (Or.inr h2)]
    · by_cases hc : file = "index.html" ∨ endsWithL (".html".data) file.data = false
      · rw [if_pos hc]
      · rw [if_neg hc, h3]
  refine ⟨hnone, fun pre post => ?_⟩
  simp [List.filterMap_append, List.filterMap_cons, hnone]

/-- C6 witness: the theorem applied to the concrete filename
`notes.txt`, also within a listing. -/
theorem c6_parse_reject_witness :
    getArticleFromFilename ("notes.txt") = none ∧
    (["2024-03-05-ok.html"] ++ "notes.txt" :: []).filterMap getArticleFromFilename =
      (["2024-03-05-ok.html"] ++ []).filterMap getArticleFromFilename :=
  ⟨(c6_parse_reject ("notes.txt") (by decide)).1,
   (c6_parse_reject ("notes.txt") (by decide)).2 ["2024-03-05-ok.html"] []⟩

/-- C5: the rendered list entry inserts the raw title into the visible
link text, while the `data-title` attribute value is the title with every
`"` replaced by `&quot;`; `escapeHtml` is character-local and alters no
character other than `"`. -/
theorem c5_title_escaping :
    (∀ a : Article, articleItemHtml a =
      "\n        <li class=\"article-item\">\n            <a href=\"/" ++ a.path
      ++ "\" target=\"_blank\" class=\"article-link\">" ++ a.title
      ++ "</a>\n            <button class=\"copy-btn\" data-title=\"" ++ escapeHtml a.title
      ++ "\" data-path=\"" ++ a.path ++ "\">复制链接</button>\n        </li>\n") ∧
    (∀ s : String, (escapeHtml s).data =
      (s.data.map (fun c => if c = '"' then ("&quot;" : String).data else [c])).flatten) ∧
    (∀ s : String, (∀ c ∈ s.data, c ≠ '"') → escapeHtml s = s) ∧
    escapeHtml ("He said \"hi\"") = "He said &quot;hi&quot;" :=
  ⟨fun _ => rfl, escapeHtml_data, escapeHtml_of_no_quote, by decide⟩

/-- C5 witness: the quote-free and quote-containing cases evaluated. -/
theorem c5_title_escaping_witness :
    escapeHtml ("abc") = "abc" ∧ escapeHtml ("He said \"hi\"") = "He said &quot;hi&quot;" :=
  ⟨c5_title_escaping.2.2.1 ("abc") (by decide), c5_title_escaping.2.2.2⟩

/-- C10: the `data-path` attribute value is inserted verbatim with no
escaping: it is exactly `pages/<filename>` for every parsed article, and
for a filename containing a double quote the emitted attribute contains
the raw, unescaped quote. -/
theorem c10_path_verbatim :
    (∀ a : Article, OccursIn ("\" data-path=\"" ++ a.path ++ "\">") (articleItemHtml a)) ∧
    (∀ (file : String) (a : Article), getArticleFromFilename file = some a →
      a.path = "pages/" ++ file) ∧
    getArticleFromFilename ("2024-01-01-a\"b.html") =
      some { title := "a\"b", date := "2024-01-01",
             path := "pages/2024-01-01-a\"b.html", filename := "2024-01-01-a\"b.html" } ∧
    OccursIn ("data-path=\"pages/2024-01-01-a\"b.html\">")
      (articleItemHtml { title := "a\"b", date := "2024-01-01",
                         path := "pages/2024-01-01-a\"b.html",
                         filename := "2024-01-01-a\"b.html" }) := by
  refine ⟨?_, ?_, by decide, ?_⟩
  · intro a
    refine ⟨("\n        <li class=\"article-item\">\n            <a href=\"/" ++ a.path
      ++ "\" target=\"_blank\" class=\"article-link\">" ++ a.title
      ++ "</a>\n            <button class=\"copy-btn\" data-title=\""
      ++ escapeHtml a.title).data,
      ("复制链接</button>\n        </li>\n").data, ?_⟩
    simp [articleItemHtml, String.data_append, List.append_assoc]
  · intro file a h
    rw [getArticleFromFilename] at h
    by_cases hc : file = "index.html" ∨ endsWithL (".html".data) file.data = false
    · rw [if_pos hc] at h; cases h
    · rw [if_neg hc] at h
      cases hm : matchDateStart file.data with
      | none => rw [hm] at h; cases h
      | some pr =>
        obtain ⟨dc, r⟩ := pr
        rw [hm] at h
        cases h
        rfl
  · refine ⟨("\n        <li class=\"article-item\">\n            <a href=\"/pages/2024-01-01-a\"b.html\" target=\"_blank\" class=\"article-link\">a\"b</a>\n            <button class=\"copy-btn\" data-title=\"a&quot;b\" ").data,
      ("复制链接</button>\n        </li>\n").data, ?_⟩
    decide

/-- C10 witness: the path rule applied to a concrete parsed filename. -/
theorem c10_path_verbatim_witness :
    ({ title := "x", date := "2024-01-01", path := "pages/2024-01-01-x.html",
       filename := "2024-01-01-x.html" } : Article).path = "pages/" ++ "2024-01-01-x.html" :=
  c10_path_verbatim.2.1 ("2024-01-01-x.html")
    { title := "x", date := "2024-01-01", path := "pages/2024-01-01-x.html",
      filename := "2024-01-01-x.html" } (by decide)

/-- C3: with page size 10, `totalPages` is the ceiling of `n / 10`
(characterised by `10 * (totalPages - 1) < n ≤ 10 * totalPages` for
`n ≥ 1`), each page's slice is exactly `articles[(i-1)*10 : i*10]`, and
25 articles give 3 pages of sizes 10, 10 and 5. -/
theorem c3_pagination (l : List Article) (h1 : 1 ≤ l.length) :
    (POSTS_PER_PAGE * (totalPagesFor l.length - 1) < l.length ∧
      l.length ≤ POSTS_PER_PAGE * totalPagesFor l.length) ∧
    (∀ i, 1 ≤ i → i ≤ totalPagesFor l.length →
      pageSlice l i = (l.take (i * POSTS_PER_PAGE)).drop ((i - 1) * POSTS_PER_PAGE)) ∧
    (l.length = 25 → totalPagesFor l.length = 3 ∧ (pageSlice l 1).length = 10 ∧
      (pageSlice l 2).length = 10 ∧ (pageSlice l 3).length = 5) := by
  refine ⟨?_, ?_, ?_⟩
  · simp only [totalPagesFor, POSTS_PER_PAGE]
    omega
  · intro i hi _
    rw [pageSlice, List.drop_take]
    have harith : i * POSTS_PER_PAGE - (i - 1) * POSTS_PER_PAGE = POSTS_PER_PAGE := by
      simp only [POSTS_PER_PAGE]
      omega
    rw [harith]
  · intro hl
    refine ⟨by simp [totalPagesFor, POSTS_PER_PAGE, hl], ?_, ?_, ?_⟩ <;>
      simp [pageSlice, POSTS_PER_PAGE, List.length_take, List.length_drop, hl]

/-- C3 witness: the theorem applied to a concrete list of 25 articles. -/
theorem c3_pagination_witness :
    totalPagesFor (List.replicate 25 sampleArticle).length = 3 ∧
    (pageSlice (List.replicate 25 sampleArticle) 1).length = 10 ∧
    (pageSlice (List.replicate 25 sampleArticle) 2).length = 10 ∧
    (pageSlice (List.replicate 25 sampleArticle) 3).length = 5 :=
  (c3_pagination (List.replicate 25 sampleArticle) (by simp)).2.2 (by simp)

/-- C7: when the source listing yields zero parseable articles, the build
still removes and recreates the output directory and copies the static
assets, writes no page file at all, and terminates normally (the trace is
exactly the clean, copy and log effects). -/
theorem c7_empty_build (files : List String) (template : String) (year : Nat)
    (h : files.filterMap getArticleFromFilename = []) :
    run files template year =
      [Effect.rmDir siteDir, Effect.mkDir siteDir,
       Effect.logLine ("Cleaned and created directory: " ++ siteDir),
       Effect.copyDir pagesDir (siteDir ++ "/pages"),
       Effect.logLine ("Copied 'pages' directory to " ++ siteDir),
       Effect.logLine ("No articles found. Site generation stopped.")] ∧
    (∀ p c, Effect.writeFile p c ∉ run files template year) := by
  have hrun : run files template year =
      [Effect.rmDir siteDir, Effect.mkDir siteDir,
       Effect.logLine ("Cleaned and created directory: " ++ siteDir),
       Effect.copyDir pagesDir (siteDir ++ "/pages"),
       Effect.logLine ("Copied 'pages' directory to " ++ siteDir),
       Effect.logLine ("No articles found. Site generation stopped.")] := by
    simp [run, h, sortArticles, List.insertionSort]
  refine ⟨hrun, fun p c hm => ?_⟩
  rw [hrun] at hm
  simp at hm

/-- C7 witness: the theorem applied to a listing with no parseable
article. -/
theorem c7_empty_build_witness :
    run ["notes.txt"] "<html></html>" 2024 =
      [Effect.rmDir siteDir, Effect.mkDir siteDir,
       Effect.logLine ("Cleaned and created directory: " ++ siteDir),
       Effect.copyDir pagesDir (siteDir ++ "/pages"),
       Effect.logLine ("Copied 'pages' directory to " ++ siteDir),
       Effect.logLine ("No articles found. Site generation stopped.")] :=
  (c7_empty_build ["notes.txt"] ("<html></html>") 2024 (by decide)).1

/-- C9: the build is a deterministic function of its inputs with no
cross-run state: applied to any two prior output-directory states the
trace produces the same output tree, and a second run on top of the
first's output reproduces it byte for byte. -/
theorem c9_idempotent (files : List String) (template : String) (year : Nat)
    (pagesFS fs1 fs2 : List (String × String)) :
    applyEffects pagesFS fs1 (run files template year) =
      applyEffects pagesFS fs2 (run files template year) ∧
    applyEffects pagesFS (applyEffects pagesFS fs1 (run files template year))
        (run files template year) =
      applyEffects pagesFS fs1 (run files template year) := by
  have key : ∀ fs fs' : List (String × String),
      applyEffects pagesFS fs (run files template year) =
        applyEffects pagesFS fs' (run files template year) := by
    intro fs fs'
    simp [run, applyEffects, applyEffect]
  exact ⟨key fs1 fs2, key (applyEffects pagesFS fs1 (run files template year)) fs1⟩

/-- C2: the article list is sorted by filename descending (a permutation
of the input, sorted under the descending comparison), and the rendered
article-list fragment emits the date groups in strictly descending date
order, each group holding exactly the articles of that date in the order
of the pre-sorted list. -/
theorem c2_sort_group (l : List Article) :
    (sortArticles l).Perm l ∧
    (sortArticles l).Sorted descFilename ∧
    (sortedDatesDesc (groupByDate (sortArticles l))).Sorted (fun d e : String => e < d) ∧
    (∀ d : String, lookupG d (groupByDate (sortArticles l)) =
      (sortArticles l).filter (fun a => a.date == d)) ∧
    generateArticlesHtml (sortArticles l) =
      strConcat ((sortedDatesDesc (groupByDate (sortArticles l))).map
        (fun d => dateGroupHtml d ((sortArticles l).filter (fun a => a.date == d)))) :=
  ⟨List.perm_insertionSort _ _, List.sorted_insertionSort _ _,
    sortedDatesDesc_strictDesc _ (keysOf_groupByDate_nodup _),
    fun d => lookupG_groupByDate d _, generateArticlesHtml_eq _⟩

-- --- occurrence helpers for the pagination fragment ---

theorem occursIn_self (pat : String) : OccursIn pat pat := ⟨[], [], by simp⟩

theorem occursIn_appendL {pat s : String} (t : String) (h : OccursIn pat s) :
    OccursIn pat (t ++ s) := by
  obtain ⟨p, q, hs⟩ := h
  exact ⟨t.data ++ p, q, by simp [String.data_append, hs, List.append_assoc]⟩

theorem occursIn_appendR {pat s : String} (t : String) (h : OccursIn pat s) :
    OccursIn pat (s ++ t) := by
  obtain ⟨p, q, hs⟩ := h
  exact ⟨p, q ++ t.data, by simp [String.data_append, hs, List.append_assoc]⟩

theorem not_occursIn_of_not_mem {pat s : String} (c : Char) (hc : c ∈ pat.data)
    (hs : c ∉ s.data) : ¬ OccursIn pat s :=
  fun h => hs (occursIn_mem h hc)

theorem laquo_not_mem_decNat (n : Nat) : '«' ∉ (decNat n).data :=
  fun h => absurd (decNat_mem h) (by decide)

theorem raquo_not_mem_decNat (n : Nat) : '»' ∉ (decNat n).data :=
  fun h => absurd (decNat_mem h) (by decide)

/-- C4: for every `currentPage` in `[1, totalPages]`, the pagination
fragment has no previous link on page 1, a previous link targeting `/` on
page 2 and `/archives/<currentPage-1>/` beyond, no next link on the last
page and otherwise a next link targeting `/archives/<currentPage+1>/`,
and always the page indicator showing `currentPage` and `totalPages`. -/
theorem c4_pagination_links (i N : Nat) (h1 : 1 ≤ i) (h2 : i ≤ N) :
    (i = 1 → ¬ OccursIn ("« 上一页") (generatePaginationHtml i N)) ∧
    (i = 2 → OccursIn (prevAnchorHtml ("/")) (generatePaginationHtml i N)) ∧
    (2 < i → OccursIn (prevAnchorHtml ("/archives/" ++ decNat (i - 1) ++ "/"))
      (generatePaginationHtml i N)) ∧
    (i = N → ¬ OccursIn ("下一页 »") (generatePaginationHtml i N)) ∧
    (i < N → OccursIn (nextAnchorHtml (decNat (i + 1))) (generatePaginationHtml i N)) ∧
    OccursIn (pageIndicatorHtml i N) (generatePaginationHtml i N) := by
  refine ⟨?_, ?_, ?_, ?_, ?_, ?_⟩
  · -- page 1 has no previous link
    intro hi
    subst hi
    apply not_occursIn_of_not_mem '«' (by decide)
    by_cases hN : 1 < N
    · have hH : generatePaginationHtml 1 N =
          (("<div class=\"pagination\">" ++ pageIndicatorHtml 1 N)
            ++ nextAnchorHtml (decNat (1 + 1))) ++ "</div>" := by
        simp only [generatePaginationHtml, pageIndicatorHtml, nextAnchorHtml,
          if_neg (by omega : ¬(1 : Nat) > 1), if_pos hN]
      rw [hH]
      simp [String.data_append, List.mem_append, laquo_not_mem_decNat,
        pageIndicatorHtml, nextAnchorHtml]
    · have hH : generatePaginationHtml 1 N =
          ("<div class=\"pagination\">" ++ pageIndicatorHtml 1 N) ++ "</div>" := by
        simp only [generatePaginationHtml, pageIndicatorHtml,
          if_neg (by omega : ¬(1 : Nat) > 1), if_neg hN]
      rw [hH]
      simp [String.data_append, List.mem_append, laquo_not_mem_decNat, pageIndicatorHtml]
  · -- page 2 has a previous link to the root
    intro hi
    subst hi
    by_cases hN : 2 < N
    · have hH : generatePaginationHtml 2 N =
          ((("<div class=\"pagination\">" ++ prevAnchorHtml ("/"))
            ++ pageIndicatorHtml 2 N) ++ nextAnchorHtml (decNat (2 + 1))) ++ "</div>" := by
        simp only [generatePaginationHtml, prevAnchorHtml, pageIndicatorHtml, nextAnchorHtml,
          if_pos (by omega : (2 : Nat) > 1), if_true, if_pos hN]
      rw [hH]
      exact occursIn_appendR _ (occursIn_appendR _ (occursIn_appendR _
        (occursIn_appendL _ (occursIn_self _))))
    · have hN2 : N = 2 := by omega
      subst hN2
      have hH : generatePaginationHtml 2 2 =
          (("<div class=\"pagination\">" ++ prevAnchorHtml ("/"))
            ++ pageIndicatorHtml 2 2) ++ "</div>" := by
        simp only [generatePaginationHtml, prevAnchorHtml, pageIndicatorHtml,
          if_pos (by omega : (2 : Nat) > 1), if_true,
          if_neg (by omega : ¬(2 : Nat) < 2)]
      rw [hH]
      exact occursIn_appendR _ (occursIn_appendR _ (occursIn_appendL _ (occursIn_self _)))
  · -- beyond page 2 the previous link targets the preceding archive page
    intro hi
    have hgt : i > 1 := by omega
    have hne2 : ¬ i = 2 := by omega
    by_cases hN : i < N
    · have hH : generatePaginationHtml i N =
          ((("<div class=\"pagination\">"
            ++ prevAnchorHtml ("/archives/" ++ decNat (i - 1) ++ "/"))
            ++ pageIndicatorHtml i N) ++ nextAnchorHtml (decNat (i + 1))) ++ "</div>" := by
        simp only [generatePaginationHtml, prevAnchorHtml, pageIndicatorHtml, nextAnchorHtml,
          if_pos hgt, if_neg hne2, if_pos hN]
      rw [hH]
      exact occursIn_appendR _ (occursIn_appendR _ (occursIn_appendR _
        (occursIn_appendL _ (occursIn_self _))))
    · have hH : generatePaginationHtml i N =
          (("<div class=\"pagination\">"
            ++ prevAnchorHtml ("/archives/" ++ decNat (i - 1) ++ "/"))
            ++ pageIndicatorHtml i N) ++ "</div>" := by
        simp only [generatePaginationHtml, prevAnchorHtml, pageIndicatorHtml,
          if_pos hgt, if_neg hne2, if_neg hN]
      rw [hH]
      exact occursIn_appendR _ (occursIn_appendR _ (occursIn_appendL _ (occursIn_self _)))
  · -- the last page has no next link
    intro hi
    subst hi
    apply not_occursIn_of_not_mem '»' (by decide)
    have hnolt : ¬ i < i := by omega
    by_cases hp : 1 < i
    · by_cases hp2 : i = 2
      · subst hp2
        have hH : generatePaginationHtml 2 2 =
            (("<div class=\"pagination\">" ++ prevAnchorHtml ("/"))
              ++ pageIndicatorHtml 2 2) ++ "</div>" := by
          simp only [generatePaginationHtml, prevAnchorHtml, pageIndicatorHtml,
            if_pos (by omega : (2 : Nat) > 1), if_true,
            if_neg (by omega : ¬(2 : Nat) < 2)]
        rw [hH]
        simp [String.data_append, List.mem_append, raquo_not_mem_decNat,
          prevAnchorHtml, pageIndicatorHtml]
      · have hH : generatePaginationHtml i i =
            (("<div class=\"pagination\">"
              ++ prevAnchorHtml ("/archives/" ++ decNat (i - 1) ++ "/"))
              ++ pageIndicatorHtml i i) ++ "</div>" := by
          simp only [generatePaginationHtml, prevAnchorHtml, pageIndicatorHtml,
            if_pos hp, if_neg hp2, if_neg hnolt]
        rw [hH]
        simp [String.data_append, List.mem_append, raquo_not_mem_decNat,
          prevAnchorHtml, pageIndicatorHtml]
    · have hH : generatePaginationHtml i i =
          ("<div class=\"pagination\">" ++ pageIndicatorHtml i i) ++ "</div>" := by
        simp only [generatePaginationHtml, pageIndicatorHtml,
          if_neg hp, if_neg hnolt]
      rw [hH]
      simp [String.data_append, List.mem_append, raquo_not_mem_decNat, pageIndicatorHtml]
  · -- before the last page the next link targets the following archive page
    intro hiN
    by_cases hp : 1 < i
    · by_cases hp2 : i = 2
      · subst hp2
        have hH : generatePaginationHtml 2 N =
            ((("<div class=\"pagination\">" ++ prevAnchorHtml ("/"))
              ++ pageIndicatorHtml 2 N) ++ nextAnchorHtml (decNat (2 + 1))) ++ "</div>" := by
          simp only [generatePaginationHtml, prevAnchorHtml, pageIndicatorHtml, nextAnchorHtml,
            if_pos (by omega : (2 : Nat) > 1), if_true, if_pos hiN]
        rw [hH]
        exact occursIn_appendR _ (occursIn_appendL _ (occursIn_self _))
      · have hH : generatePaginationHtml i N =
            ((("<div class=\"pagination\">"
              ++ prevAnchorHtml ("/archives/" ++ decNat (i - 1) ++ "/"))
              ++ pageIndicatorHtml i N) ++ nextAnchorHtml (decNat (i + 1))) ++ "</div>" := by
          simp only [generatePaginationHtml, prevAnchorHtml, pageIndicatorHtml, nextAnchorHtml,
            if_pos hp, if_neg hp2, if_pos hiN]
        rw [hH]
        exact occursIn_appendR _ (occursIn_appendL _ (occursIn_self _))
    · have hH : generatePaginationHtml i N =
          (("<div class=\"pagination\">" ++ pageIndicatorHtml i N)
            ++ nextAnchorHtml (decNat (i + 1))) ++ "</div>" := by
        simp only [generatePaginationHtml, pageIndicatorHtml, nextAnchorHtml,
          if_neg hp, if_pos hiN]
      rw [hH]
      exact occursIn_appendR _ (occursIn_appendL _ (occursIn_self _))
  · -- the page indicator is always rendered
    by_cases hp : 1 < i
    · by_cases hp2 : i = 2
      · subst hp2
        by_cases hn : 2 < N
        · have hH : generatePaginationHtml 2 N =
              ((("<div class=\"pagination\">" ++ prevAnchorHtml ("/"))
                ++ pageIndicatorHtml 2 N) ++ nextAnchorHtml (decNat (2 + 1))) ++ "</div>" := by
            simp only [generatePaginationHtml, prevAnchorHtml, pageIndicatorHtml,
              nextAnchorHtml, if_pos (by omega : (2 : Nat) > 1), if_true, if_pos hn]
          rw [hH]
          exact occursIn_appendR _ (occursIn_appendR _ (occursIn_appendL _ (occursIn_self _)))
        · have hH : generatePaginationHtml 2 N =
              (("<div class=\"pagination\">" ++ prevAnchorHtml ("/"))
                ++ pageIndicatorHtml 2 N) ++ "</div>" := by
            simp only [generatePaginationHtml, prevAnchorHtml, pageIndicatorHtml,
              if_pos (by omega : (2 : Nat) > 1), if_true, if_neg hn]
          rw [hH]
          exact occursIn_appendR _ (occursIn_appendL _ (occursIn_self _))
      · by_cases hn : i < N
        · have hH : generatePaginationHtml i N =
              ((("<div class=\"pagination\">"
                ++ prevAnchorHtml ("/archives/" ++ decNat (i - 1) ++ "/"))
                ++ pageIndicatorHtml i N) ++ nextAnchorHtml (decNat (i + 1))) ++ "</div>" := by
            simp only [generatePaginationHtml, prevAnchorHtml, pageIndicatorHtml,
              nextAnchorHtml, if_pos hp, if_neg hp2, if_pos hn]
          rw [hH]
          exact occursIn_appendR _ (occursIn_appendR _ (occursIn_appendL _ (occursIn_self _)))
        · have hH : generatePaginationHtml i N =
              (("<div class=\"pagination\">"
                ++ prevAnchorHtml ("/archives/" ++ decNat (i - 1) ++ "/"))
                ++ pageIndicatorHtml i N) ++ "</div>" := by
            simp only [generatePaginationHtml, prevAnchorHtml, pageIndicatorHtml,
              if_pos hp, if_neg hp2, if_neg hn]
          rw [hH]
          exact occursIn_appendR _ (occursIn_appendL _ (occursIn_self _))
    · by_cases hn : i < N
      · have hH : generatePaginationHtml i N =
            (("<div class=\"pagination\">" ++ pageIndicatorHtml i N)
              ++ nextAnchorHtml (decNat (i + 1))) ++ "</div>" := by
          simp only [generatePaginationHtml, pageIndicatorHtml, nextAnchorHtml,
            if_neg hp, if_pos hn]
        rw [hH]
        exact occursIn_appendR _ (occursIn_appendR _ (occursIn_appendL _ (occursIn_self _)))
      · have hH : generatePaginationHtml i N =
            ("<div class=\"pagination\">" ++ pageIndicatorHtml i N) ++ "</div>" := by
          simp only [generatePaginationHtml, pageIndicatorHtml, if_neg hp, if_neg hn]
        rw [hH]
        exact occursIn_appendR _ (occursIn_appendL _ (occursIn_self _))

/-- C4 witness: the theorem applied on concrete pages of a three-page
site. -/
theorem c4_pagination_links_witness :
    OccursIn (prevAnchorHtml ("/")) (generatePaginationHtml 2 3) ∧
    OccursIn (nextAnchorHtml (decNat (2 + 1))) (generatePaginationHtml 2 3) ∧
    OccursIn (pageIndicatorHtml 2 3) (generatePaginationHtml 2 3) :=
  ⟨(c4_pagination_links 2 3 (by decide) (by decide)).2.1 rfl,
   (c4_pagination_links 2 3 (by decide) (by decide)).2.2.2.2.1 (by decide),
   (c4_pagination_links 2 3 (by decide) (by decide)).2.2.2.2.2⟩

/-- C8 counterexample: the replacement is not literal insertion for every
fragment content — `String.prototype.replace` applies `$`-substitution to
the replacement, so an article-list fragment containing `$$` is inserted
as `$`, and the produced page differs from the spec's literal
replacement. -/
theorem c8_counterexample :
    assemblePage
        ("X<!-- ARCHIVES_PLACEHOLDER -->Y<!-- PAGINATION_PLACEHOLDER --><!-- YEAR_PLACEHOLDER -->")
        ("$$") ("p") 7 = "X$Yp7" ∧
    literalAssemblePage
        ("X<!-- ARCHIVES_PLACEHOLDER -->Y<!-- PAGINATION_PLACEHOLDER --><!-- YEAR_PLACEHOLDER -->")
        ("$$") ("p") 7 = "X$$Yp7" ∧
    assemblePage
        ("X<!-- ARCHIVES_PLACEHOLDER -->Y<!-- PAGINATION_PLACEHOLDER --><!-- YEAR_PLACEHOLDER -->")
        ("$$") ("p") 7 ≠
      literalAssemblePage
        ("X<!-- ARCHIVES_PLACEHOLDER -->Y<!-- PAGINATION_PLACEHOLDER --><!-- YEAR_PLACEHOLDER -->")
        ("$$") ("p") 7 :=
  ⟨by decide, by decide, by decide⟩

/-- C8 (amended): provided the two fragment strings contain none of the
`$`-substitution escapes (`$$`, `$&`, `$` + backtick, `$'`), the final
page HTML equals the template with exactly the first occurrence of each
of the three placeholder tokens replaced, each exactly once, by the
literal fragment strings and the decimal rendering of the year, and no
other part of the template changed.  The first-occurrence positions are
given by the decompositions and the `noMatchBefore` hypotheses. -/
theorem c8_first_occurrence_subst (p1 q1 r1 r2 A P : String) (y : Nat)
    (hA : hasSubstEscape A.data = false)
    (hP : hasSubstEscape P.data = false)
    (h1 : noMatchBefore (phArchives.data)
      ((p1 ++ phArchives ++ q1 ++ phPagination ++ r1 ++ phYear ++ r2).data)
      (p1.data.length))
    (h2 : noMatchBefore (phPagination.data)
      ((p1 ++ A ++ q1 ++ phPagination ++ r1 ++ phYear ++ r2).data)
      ((p1 ++ A ++ q1).data.length))
    (h3 : noMatchBefore (phYear.data)
      ((p1 ++ A ++ q1 ++ P ++ r1 ++ phYear ++ r2).data)
      ((p1 ++ A ++ q1 ++ P ++ r1).data.length)) :
    assemblePage (p1 ++ phArchives ++ q1 ++ phPagination ++ r1 ++ phYear ++ r2) A P y =
      p1 ++ A ++ q1 ++ P ++ r1 ++ decNat y ++ r2 := by
  apply strExt
  show replaceFirstJS (phYear.data) ((decNat y).data)
      (replaceFirstJS (phPagination.data) (P.data)
        (replaceFirstJS (phArchives.data) (A.data)
          ((p1 ++ phArchives ++ q1 ++ phPagination ++ r1 ++ phYear ++ r2).data))) =
      (p1 ++ A ++ q1 ++ P ++ r1 ++ decNat y ++ r2).data
  have e0 : (p1 ++ phArchives ++ q1 ++ phPagination ++ r1 ++ phYear ++ r2).data =
      p1.data ++ phArchives.data ++
        (q1.data ++ (phPagination.data ++ (r1.data ++ (phYear.data ++ r2.data)))) := by
    simp [String.data_append, List.append_assoc]
  rw [e0] at h1 ⊢
  rw [replaceFirstJS_literal _ _ _ _ h1 hA]
  have e1 : p1.data ++ A.data ++
      (q1.data ++ (phPagination.data ++ (r1.data ++ (phYear.data ++ r2.data)))) =
      (p1.data ++ A.data ++ q1.data) ++ phPagination.data ++
        (r1.data ++ (phYear.data ++ r2.data)) := by
    simp [List.append_assoc]
  rw [e1]
  have e2 : (p1 ++ A ++ q1 ++ phPagination ++ r1 ++ phYear ++ r2).data =
      (p1.data ++ A.data ++ q1.data) ++ phPagination.data ++
        (r1.data ++ (phYear.data ++ r2.data)) := by
    simp [String.data_append, List.append_assoc]
  have e2l : (p1 ++ A ++ q1).data = p1.data ++ A.data ++ q1.data := by
    simp [String.data_append]
  rw [e2, e2l] at h2
  rw [replaceFirstJS_literal _ _ _ _ h2 hP]
  have e3 : (p1.data ++ A.data ++ q1.data) ++ P.data ++
      (r1.data ++ (phYear.data ++ r2.data)) =
      (p1.data ++ A.data ++ q1.data ++ P.data ++ r1.data) ++ phYear.data ++ r2.data := by
    simp [List.append_assoc]
  rw [e3]
  have e4 : (p1 ++ A ++ q1 ++ P ++ r1 ++ phYear ++ r2).data =
      (p1.data ++ A.data ++ q1.data ++ P.data ++ r1.data) ++ phYear.data ++ r2.data := by
    simp [String.data_append, List.append_assoc]
  have e4l : (p1 ++ A ++ q1 ++ P ++ r1).data =
      p1.data ++ A.data ++ q1.data ++ P.data ++ r1.data := by
    simp [String.data_append, List.append_assoc]
  rw [e4, e4l] at h3
  have hY : hasSubstEscape ((decNat y).data) = false :=
    no_dollar_no_escape _ (fun h => absurd (decNat_mem h) (by decide))
  rw [replaceFirstJS_literal _ _ _ _ h3 hY]
  simp [String.data_append, List.append_assoc]

/-- C8 witness: the amended substitution applied to a concrete template
with escape-free fragments. -/
theorem c8_first_occurrence_subst_witness :
    assemblePage ("A" ++ phArchives ++ "B" ++ phPagination ++ "C" ++ phYear ++ "D")
        ("x") ("z") 2024 =
      "A" ++ "x" ++ "B" ++ "z" ++ "C" ++ decNat 2024 ++ "D" :=
  c8_first_occurrence_subst ("A") ("B") ("C") ("D") ("x") ("z") 2024
    (by decide) (by decide) (by decide) (by decide) (by decide)
